import Mathlib

/-!
Verification development for the SpendAI proxy credential and usage-governance
engine.  JavaScript services are shallowly embedded as executable Lean
definitions: database tables become explicit lists, asynchronous outcomes of
external calls (database queries, the upstream HTTP call, the AES-GCM core of
the Node crypto module) become explicit parameters, monetary amounts become
exact rationals, and fallible code returns Except/Option.
-/

set_option maxHeartbeats 1000000

namespace SpendAI

/-! ## PricingService (backend/src/services/pricingService.js) -/

/-- Static pricing table: model name ↦ (USD per 1M prompt tokens, USD per 1M
completion tokens).  Mirrors PricingService.getPricingTable. -/
def getPricingTable : List (String × ℚ × ℚ) :=
  [("gpt-3.5-turbo", 0.50, 1.50),
   ("gpt-3.5-turbo-0125", 0.50, 1.50),
   ("gpt-3.5-turbo-1106", 1.00, 2.00),
   ("gpt-4", 30.00, 60.00),
   ("gpt-4-0613", 30.00, 60.00),
   ("gpt-4-turbo", 10.00, 30.00),
   ("gpt-4-turbo-preview", 10.00, 30.00),
   ("gpt-4o", 5.00, 15.00),
   ("gpt-4o-mini", 0.15, 0.60)]

/-- PricingService.getModelPricing: table lookup, null when absent. -/
def getModelPricing (model : String) : Option (ℚ × ℚ) :=
  (getPricingTable.find? (fun e => e.1 == model)).map (fun e => e.2)

/-- JavaScript Math.round: round half towards positive infinity. -/
def jsRound (q : ℚ) : ℤ := ⌊q + 1/2⌋

/-- PricingService.calculateCost: cost in USD, rounded to 6 decimal places.
Unknown model yields 0 (with a logged warning in the source). -/
def calculateCost (model : String) (promptTokens completionTokens : ℕ) : ℚ :=
  match getModelPricing model with
  | none => 0
  | some pricing =>
      let promptCost : ℚ := ((promptTokens : ℚ) / 1000000) * pricing.1
      let completionCost : ℚ := ((completionTokens : ℚ) / 1000000) * pricing.2
      let totalCost : ℚ := promptCost + completionCost
      (jsRound (totalCost * 1000000) : ℚ) / 1000000

/-! ## BudgetService (src/unnamed/part_007) -/

/-- The descending threshold ladder checked by BudgetService.evaluateThresholds. -/
def budgetThresholds : List ℚ := [100, 90, 75, 50]

/-- The for-loop body of BudgetService.evaluateThresholds: walk the ladder,
record an alert for the first threshold at or below percentUsed, then break.
Returns the list of thresholds for which an alert insert is attempted. -/
def thresholdLoop (percentUsed : ℚ) : List ℚ → List ℚ
  | [] => []
  | t :: ts => if t ≤ percentUsed then [t] else thresholdLoop percentUsed ts

/-- BudgetService.evaluateThresholds, as the list of thresholds for which
recordAlert is invoked during one evaluation of a scope. -/
def evaluateThresholds (budget actual : ℚ) : List ℚ :=
  thresholdLoop (actual / budget * 100) budgetThresholds

/-- Alerts attempted for one scope inside BudgetService.checkBudgets: the
scope is evaluated only when its configured budget satisfies budget > 0
(a NULL budget, modelled as none, compares false in JavaScript). -/
def scopeAlerts (budget : Option ℚ) (actual : ℚ) : List ℚ :=
  match budget with
  | none => []
  | some b => if 0 < b then evaluateThresholds b actual else []

/-- Which scope an attempted alert belongs to. -/
inductive ScopeLevel where
  | organization
  | project
deriving DecidableEq, Repr

/-- BudgetService.checkBudgets: evaluate the organization budget, then the
project budget; returns the (scope, threshold) alert inserts attempted. -/
def checkBudgets (orgBudget : Option ℚ) (orgSpend : ℚ)
    (projBudget : Option ℚ) (projSpend : ℚ) : List (ScopeLevel × ℚ) :=
  (scopeAlerts orgBudget orgSpend).map (fun t => (ScopeLevel.organization, t)) ++
  (scopeAlerts projBudget projSpend).map (fun t => (ScopeLevel.project, t))

/-! ## AlertService (backend/src/services/alertService.js) and the alerts
table of migration 004_budgets_and_alerts.sql -/

/-- One row of the alerts table. -/
structure AlertRow where
  organization_id : ℕ
  project_id : Option ℕ
  alert_level : String
  threshold_percent : ℤ
  budget_amount : ℚ
  actual_spend : ℚ
  month_year : String
deriving DecidableEq, Repr

/-- The deduplication key enforced by the two partial unique indexes
idx_unique_org_alert_per_month (organization_id, threshold_percent,
month_year when project_id IS NULL) and idx_unique_project_alert_per_month
(project_id, threshold_percent, month_year when project_id IS NOT NULL). -/
def alertKey (r : AlertRow) : (ℕ × ℤ × String) ⊕ (ℕ × ℤ × String) :=
  match r.project_id with
  | none => Sum.inl (r.organization_id, r.threshold_percent, r.month_year)
  | some p => Sum.inr (p, r.threshold_percent, r.month_year)

/-- The datastore insert into alerts: a row colliding with an existing row on
its unique index fails with Postgres error code 23505. -/
def alertInsert (store : List AlertRow) (r : AlertRow) :
    Except String (List AlertRow) :=
  if store.any (fun x => decide (alertKey x = alertKey r)) then .error "23505"
  else .ok (store ++ [r])

/-- Result shape of AlertService.recordAlert. -/
structure AlertResult where
  success : Bool
  already_sent : Bool
deriving DecidableEq, Repr

/-- AlertService.recordAlert: insert the alert; a 23505 unique-violation is
treated as success (alert already sent this period); any other insert error
is caught and reported as success = false.  dbFail models a non-constraint
database failure of the insert call. -/
def recordAlert (dbFail : Bool) (store : List AlertRow) (r : AlertRow) :
    List AlertRow × AlertResult :=
  if dbFail then (store, ⟨false, false⟩)
  else
    match alertInsert store r with
    | .error code =>
        if code = "23505" then (store, ⟨true, true⟩) else (store, ⟨false, false⟩)
    | .ok store2 => (store2, ⟨true, false⟩)

/-- The alert-store invariant: at most one row per (scope, threshold, period). -/
def uniqueAlerts (store : List AlertRow) : Prop :=
  store.Pairwise (fun a b => alertKey a ≠ alertKey b)

instance (store : List AlertRow) : Decidable (uniqueAlerts store) := by
  unfold uniqueAlerts
  exact inferInstance

/-- A sequence of recordAlert calls applied to an alert store. -/
def applyRecordAlerts (calls : List (Bool × AlertRow)) (store : List AlertRow) :
    List AlertRow :=
  calls.foldl (fun s call => (recordAlert call.1 s call.2).1) store

/-! ## ProxyKeyService (concatenated in backend/src/services/alertService.js) -/

/-- One row of the proxy_keys table as selected by verifyProxyKey; key_value
stores the HMAC-SHA256 fingerprint, modelled as its byte buffer. -/
structure ProxyKeyRow where
  id : ℕ
  organization_id : ℕ
  project_id : ℕ
  key_value : List ℕ
  is_active : Bool
deriving DecidableEq, Repr

/-- The credential object returned by a successful verifyProxyKey. -/
structure VerifiedKey where
  id : ℕ
  organization_id : ℕ
  project_id : ℕ
  is_active : Bool
deriving DecidableEq, Repr

/-- The buffer comparison inside verifyProxyKey: crypto.timingSafeEqual is
attempted only on equal-length buffers and decides byte equality (a
length mismatch simply moves on to the next candidate). -/
def bufferEq (a b : List ℕ) : Bool :=
  if a.length = b.length then decide (a = b) else false

/-- The try-block of ProxyKeyService.verifyProxyKey, with its three distinct
internal failure messages.  pepperConfigured models presence of
PROXY_KEY_SECRET, hashFn the HMAC-SHA256 fingerprint of the provided secret,
dbError a failing proxy_keys query, table the proxy_keys table. -/
def verifyProxyKeyInner (pepperConfigured : Bool) (hashFn : String → List ℕ)
    (dbError : Bool) (table : List ProxyKeyRow) (keyValue : String) :
    Except String VerifiedKey :=
  if !pepperConfigured then
    .error "PROXY_KEY_SECRET environment variable is not set"
  else
    let keyHash := hashFn keyValue
    if dbError then .error "Key verification failed"
    else
      let keys := table.filter (fun k => k.is_active)
      if keys.isEmpty then .error "Invalid or revoked proxy key"
      else
        match keys.find? (fun k => bufferEq k.key_value keyHash) with
        | none => .error "Invalid or revoked proxy key"
        | some k =>
            if !k.is_active then .error "Invalid or revoked proxy key"
            else .ok ⟨k.id, k.organization_id, k.project_id, k.is_active⟩

/-- ProxyKeyService.verifyProxyKey: the surrounding catch replaces every
internal failure with the one generic message before it reaches the caller. -/
def verifyProxyKey (pepperConfigured : Bool) (hashFn : String → List ℕ)
    (dbError : Bool) (table : List ProxyKeyRow) (keyValue : String) :
    Except String VerifiedKey :=
  match verifyProxyKeyInner pepperConfigured hashFn dbError table keyValue with
  | .ok k => .ok k
  | .error _ => .error "Invalid or revoked proxy key"

/-- The mutable state of one proxy-key row touched by revokeProxyKey. -/
structure ProxyKeyState where
  is_active : Bool
  revoked_at : Option ℕ
deriving DecidableEq, Repr

/-- Result of ProxyKeyService.revokeProxyKey on an existing key. -/
structure RevokeResult where
  success : Bool
  key : ProxyKeyState
deriving DecidableEq, Repr

/-- ProxyKeyService.revokeProxyKey: the update unconditionally writes
is_active = false and revoked_at = now, whatever the current row state is. -/
def revokeProxyKey (now : ℕ) (_current : ProxyKeyState) : RevokeResult :=
  ⟨true, { is_active := false, revoked_at := some now }⟩

/-! ## EncryptionService (concatenated in backend/src/services/authService.js) -/

/-- JavaScript String.prototype.split with a single-character separator,
over the character list of the string. -/
def splitOnChar (sep : Char) : List Char → List (List Char)
  | [] => [[]]
  | c :: cs =>
      if c = sep then [] :: splitOnChar sep cs
      else
        match splitOnChar sep cs with
        | [] => [[c]]
        | p :: ps => (c :: p) :: ps

/-- Membership in the character class of /^[0-9a-f]+$/i. -/
def isHexChar (c : Char) : Bool :=
  (decide ('0' ≤ c) && decide (c ≤ '9')) ||
  (decide ('a' ≤ c) && decide (c ≤ 'f')) ||
  (decide ('A' ≤ c) && decide (c ≤ 'F'))

/-- EncryptionService.isEncrypted: a falsy value is not encrypted; otherwise
the value must split on a colon into exactly three parts, each a non-empty
case-insensitive hex string. -/
def isEncrypted (value : String) : Bool :=
  if value = "" then false
  else
    let parts := splitOnChar ':' value.data
    if parts.length = 3 then parts.all (fun p => !p.isEmpty && p.all isHexChar)
    else false

/-- A byte of a Node Buffer. -/
abbrev Byte := Fin 256

/-- Lower-case hex digit for a value below 16 (48 = code of 0, 87 = code of
a minus 10). -/
def hexDigitChar (n : ℕ) : Char :=
  if n < 10 then Char.ofNat (48 + n) else Char.ofNat (87 + n)

/-- Buffer.toString with hex encoding: two lower-case digits per byte. -/
def hexEncode : List Byte → List Char
  | [] => []
  | b :: bs => hexDigitChar (b.val / 16) :: hexDigitChar (b.val % 16) :: hexEncode bs

/-- Value of one hex digit, case insensitive. -/
def hexVal (c : Char) : Option ℕ :=
  if decide ('0' ≤ c) && decide (c ≤ '9') then some (c.toNat - 48)
  else if decide ('a' ≤ c) && decide (c ≤ 'f') then some (c.toNat - 87)
  else if decide ('A' ≤ c) && decide (c ≤ 'F') then some (c.toNat - 55)
  else none

/-- Buffer.from with hex encoding: pairs of hex digits to bytes; a malformed
hex string yields none (surfacing as a decryption failure downstream). -/
def hexDecode : List Char → Option (List Byte)
  | [] => some []
  | [_] => none
  | c1 :: c2 :: rest =>
      match hexVal c1, hexVal c2, hexDecode rest with
      | some h, some l, some bs =>
          if hh : h * 16 + l < 256 then some (⟨h * 16 + l, hh⟩ :: bs) else none
      | _, _, _ => none

/-- Output of the Node AES-256-GCM cipher core: ciphertext plus auth tag. -/
structure GcmOutput where
  ciphertext : List Byte
  authTag : List Byte

/-- EncryptionService.encrypt: refuse an empty plaintext, run the AES-256-GCM
core (a parameter: it lives in the Node crypto module, not in this
repository) on (key, iv, plaintext), and bundle iv, auth tag and ciphertext
hex-encoded and colon-separated.  The iv is 12 fresh random bytes in the
source; it is universally quantified here. -/
def encrypt (encCore : List Byte → List Byte → List Byte → GcmOutput)
    (key iv plaintext : List Byte) : Except String (List Char) :=
  if plaintext.isEmpty then .error "Plaintext must be a non-empty string"
  else
    let out := encCore key iv plaintext
    .ok (hexEncode iv ++ ':' :: (hexEncode out.authTag ++ ':' :: hexEncode out.ciphertext))

/-- EncryptionService.decrypt: refuse an empty input, split the bundle on
colons into exactly three parts, hex-decode them, and run the AES-256-GCM
decryption core (a parameter), which verifies the auth tag and yields none
on any tampering. -/
def decrypt (decCore : List Byte → List Byte → List Byte → List Byte → Option (List Byte))
    (key : List Byte) (encrypted : List Char) : Except String (List Byte) :=
  if encrypted.isEmpty then .error "Encrypted text must be a non-empty string"
  else
    match splitOnChar ':' encrypted with
    | [ivHex, tagHex, ctHex] =>
        match hexDecode ivHex, hexDecode tagHex, hexDecode ctHex with
        | some iv, some tag, some ct =>
            match decCore key iv ct tag with
            | some plaintext => .ok plaintext
            | none => .error "Failed to decrypt OpenAI API key (corrupted or tampered)"
        | _, _, _ => .error "Failed to decrypt OpenAI API key (corrupted or tampered)"
    | _ => .error "Invalid encrypted format"

/-! ## OpenAIProxyService (backend/src/services/openaiProxyService.js) -/

/-- The fixed model allowlist of OpenAIProxyService.getSupportedModels. -/
def getSupportedModels : List String :=
  ["gpt-3.5-turbo",
   "gpt-3.5-turbo-0125",
   "gpt-3.5-turbo-1106",
   "gpt-4",
   "gpt-4-0613",
   "gpt-4-turbo",
   "gpt-4-turbo-preview",
   "gpt-4o",
   "gpt-4o-mini"]

/-- OpenAIProxyService.validateModel: a falsy model is rejected as missing;
a model outside the allowlist is rejected naming the model and the allowed
set.  Returns the error message, none when valid. -/
def validateModel (model : String) : Option String :=
  if model = "" then some "model is required"
  else if getSupportedModels.contains model then none
  else some ("Unsupported model: " ++ model ++ ". Supported models: " ++
    String.intercalate ", " getSupportedModels)

/-- OpenAIProxyService.validateChatCompletionRequest, run by the route before
proxyChatCompletion: body.model must be truthy and body.messages a non-empty
array.  Returns the error message, none when valid. -/
def validateChatCompletionRequest (model : String)
    (messages : Option (List String)) : Option String :=
  if model = "" then some "model is required"
  else
    match messages with
    | none => some "messages must be an array"
    | some ms => if ms.isEmpty then some "messages cannot be empty" else none

/-- OpenAIProxyService.getOrganizationOpenAIKey: fetch the stored
organizations.openai_api_key value; a value in the iv:authTag:ciphertext
format is decrypted, any other non-empty value is returned unchanged as the
legacy-plaintext migration path.  decryptFn abstracts
EncryptionService.decrypt on the stored string. -/
def getOrganizationOpenAIKey (decryptFn : String → Except String String)
    (dbError : Bool) (stored : Option String) : Except String String :=
  if dbError then .error "Failed to fetch organization OpenAI key"
  else
    match stored with
    | none => .error "Organization OpenAI API key not configured"
    | some v =>
        if v = "" then .error "Organization OpenAI API key not configured"
        else if isEncrypted v then
          match decryptFn v with
          | .ok plaintext => .ok plaintext
          | .error _ => .error "Failed to decrypt organization OpenAI API key"
        else .ok v

/-- The verified-credential payload used by proxyChatCompletion. -/
structure ProxyKeyInfo where
  id : ℕ
  organization_id : ℕ
  project_id : ℕ
deriving DecidableEq, Repr

/-- An HTTP-level response obtained from the upstream call. -/
structure UpstreamResponse where
  status : ℕ
  body : String
deriving DecidableEq, Repr

/-- The client-visible failures of proxyChatCompletion after its catch block. -/
inductive ProxyError where
  | invalidProxyKey
  | invalidModel (message : String)
  | decryptFailed
  | timeout
  | proxyRequestFailed
deriving DecidableEq, Repr

/-- The passthrough response returned to the caller. -/
structure ProxyResult where
  statusCode : ℕ
  body : String
  requestId : String
deriving DecidableEq, Repr

/-- Outward side effects of one proxyChatCompletion run. -/
inductive ProxyEffect where
  | upstreamCall
  | ledgerWrite
deriving DecidableEq, Repr

/-- The catch block of proxyChatCompletion applied to a
getOrganizationOpenAIKey failure: a message containing decrypt is rethrown
as the decryption error, the other two messages contain neither proxy key
nor decrypt and fall through to the generic proxy failure. -/
def remapOrgKeyError (msg : String) : ProxyError :=
  if msg = "Failed to decrypt organization OpenAI API key" then .decryptFailed
  else .proxyRequestFailed

/-- OpenAIProxyService.proxyChatCompletion.  External outcomes are explicit
inputs: keyResult is the verifyProxyKey outcome (none = the generic
verification failure), storedOrgKey/orgDbError/decryptFn feed
getOrganizationOpenAIKey, upstream is the axios outcome (none = timeout or
network failure, some r = any HTTP-level response, 4xx/5xx included since
validateStatus accepts status < 600), and loggingFails says whether the
usage-ledger write throws.  Returns the caller-visible outcome paired with
the list of performed outward effects. -/
def proxyChatCompletion (requestId : String) (keyResult : Option ProxyKeyInfo)
    (model : String) (decryptFn : String → Except String String)
    (orgDbError : Bool) (storedOrgKey : Option String)
    (upstream : Option UpstreamResponse) (loggingFails : Bool) :
    Except ProxyError ProxyResult × List ProxyEffect :=
  match keyResult with
  | none => (.error .invalidProxyKey, [])
  | some _key =>
      match validateModel model with
      | some msg => (.error (.invalidModel msg), [])
      | none =>
          match getOrganizationOpenAIKey decryptFn orgDbError storedOrgKey with
          | .error msg => (.error (remapOrgKeyError msg), [])
          | .ok _openaiApiKey =>
              match upstream with
              | none => (.error .timeout, [.upstreamCall])
              | some resp =>
                  if resp.status = 200 then
                    -- step 8: the usage-ledger write is attempted inside its
                    -- own try/catch; both branches return the response built
                    -- from the upstream status, body and trace identifier
                    if loggingFails then
                      (.ok ⟨resp.status, resp.body, requestId⟩,
                        [.upstreamCall, .ledgerWrite])
                    else
                      (.ok ⟨resp.status, resp.body, requestId⟩,
                        [.upstreamCall, .ledgerWrite])
                  else
                    (.ok ⟨resp.status, resp.body, requestId⟩, [.upstreamCall])

end SpendAI

namespace SpendAI

/-! ## Theorems for claims C3, C8, C10 -/

theorem jsRound_eq {q : ℚ} {n : ℤ} (h1 : (n : ℚ) ≤ q + 1/2)
    (h2 : q + 1/2 < (n : ℚ) + 1) : jsRound q = n := by
  unfold jsRound
  rw [Int.floor_eq_iff]
  constructor
  · exact h1
  · push_cast
    exact h2

theorem calculateCost_eq (m : String) (pp cp : ℚ)
    (h : getModelPricing m = some (pp, cp)) (p c : ℕ) :
    calculateCost m p c =
      (jsRound ((((p : ℚ) / 1000000) * pp + ((c : ℚ) / 1000000) * cp)
        * 1000000) : ℚ) / 1000000 := by
  unfold calculateCost
  rw [h]

theorem jsRound_double_sub (x : ℚ) :
    jsRound (2 * x) - 2 * jsRound x ∈ ({-1, 0, 1} : Set ℤ) := by
  unfold jsRound
  have h1 : (⌊x + 1/2⌋ : ℚ) ≤ x + 1/2 := Int.floor_le _
  have h2 : x + 1/2 < ⌊x + 1/2⌋ + 1 := Int.lt_floor_add_one _
  have h3 : (2 : ℚ) * ⌊x + 1/2⌋ - 1 ≤ 2 * x + 1/2 := by linarith
  have h4 : 2 * x + 1/2 < 2 * ⌊x + 1/2⌋ + 2 := by linarith
  have l1 : (2 * ⌊x + 1/2⌋ - 1 : ℤ) ≤ ⌊2 * x + 1/2⌋ := by
    apply Int.le_floor.mpr
    push_cast
    linarith
  have l2 : ⌊2 * x + 1/2⌋ < (2 * ⌊x + 1/2⌋ + 2 : ℤ) := by
    apply Int.floor_lt.mpr
    push_cast
    linarith
  simp only [Set.mem_insert_iff, Set.mem_singleton_iff]
  omega

/-- C3 counterexample: for gpt-3.5-turbo (completion price 1.50/1M),
doubling 1 completion token does not double the rounded cost:
cost(0,1) = round(1.5)·10⁻⁶ = 2·10⁻⁶ but cost(0,2) = 3·10⁻⁶ ≠ 4·10⁻⁶. -/
theorem calculateCost_not_linear :
    ¬ (calculateCost "gpt-3.5-turbo" (2 * 0) (2 * 1) =
        2 * calculateCost "gpt-3.5-turbo" 0 1) := by
  have hj1 : jsRound (3/2 : ℚ) = 2 := jsRound_eq (by norm_num) (by norm_num)
  have hj2 : jsRound (3 : ℚ) = 3 := jsRound_eq (by norm_num) (by norm_num)
  have e1 : calculateCost "gpt-3.5-turbo" 0 1 = 2 / 1000000 := by
    rw [calculateCost_eq "gpt-3.5-turbo" 0.50 1.50 rfl 0 1]
    norm_num [hj1]
  have e2 : calculateCost "gpt-3.5-turbo" 0 2 = 3 / 1000000 := by
    rw [calculateCost_eq "gpt-3.5-turbo" 0.50 1.50 rfl 0 2]
    norm_num [hj2]
  intro h
  rw [show (2 * 0 : ℕ) = 0 from by norm_num,
    show (2 * 1 : ℕ) = 2 from by norm_num] at h
  rw [e2, e1] at h
  norm_num at h

/-- C3 (amended): calculateCost(model, 0, 0) = 0 for every model, and doubling
both token counts doubles the cost up to one rounding unit of 10⁻⁶ USD
(the 6-decimal rounding step makes exact doubling fail). -/
theorem calculateCost_zero_and_almost_linear (model : String) (p c : ℕ) :
    calculateCost model 0 0 = 0 ∧
      |calculateCost model (2 * p) (2 * c) - 2 * calculateCost model p c| ≤
        1 / 1000000 := by
  constructor
  · unfold calculateCost
    cases getModelPricing model with
    | none => rfl
    | some pricing =>
        simp only [Nat.cast_zero]
        norm_num [jsRound]
  · unfold calculateCost
    cases getModelPricing model with
    | none => norm_num
    | some pricing =>
        simp only
        have hcast :
            (((2 * p : ℕ) : ℚ) / 1000000) * pricing.1 +
              (((2 * c : ℕ) : ℚ) / 1000000) * pricing.2 =
            2 * ((((p : ℕ) : ℚ) / 1000000) * pricing.1 +
              (((c : ℕ) : ℚ) / 1000000) * pricing.2) := by
          push_cast
          ring
        rw [hcast]
        set x : ℚ := ((((p : ℕ) : ℚ) / 1000000) * pricing.1 +
          (((c : ℕ) : ℚ) / 1000000) * pricing.2) * 1000000 with hx
        have harg : 2 * ((((p : ℕ) : ℚ) / 1000000) * pricing.1 +
            (((c : ℕ) : ℚ) / 1000000) * pricing.2) * 1000000 = 2 * x := by
          rw [hx]; ring
        rw [harg]
        have hmem := jsRound_double_sub x
        simp only [Set.mem_insert_iff, Set.mem_singleton_iff] at hmem
        have habs : |(jsRound (2 * x) : ℚ) - 2 * (jsRound x : ℚ)| ≤ 1 := by
          rcases hmem with h | h | h <;>
          · have : (jsRound (2 * x) : ℚ) - 2 * (jsRound x : ℚ) =
                ((jsRound (2 * x) - 2 * jsRound x : ℤ) : ℚ) := by push_cast; ring
            rw [this, h]
            norm_num
        have : (jsRound (2 * x) : ℚ) / 1000000 -
            2 * ((jsRound x : ℚ) / 1000000) =
            ((jsRound (2 * x) : ℚ) - 2 * (jsRound x : ℚ)) / 1000000 := by ring
        rw [this, abs_div]
        rw [abs_of_pos (by norm_num : (0:ℚ) < 1000000)]
        have h6 : (0:ℚ) < 1000000 := by norm_num
        rw [div_le_div_iff h6 h6]
        nlinarith [habs]

/-- C8: for a scope with ceiling b > 0 and spend s, one evaluation attempts an
alert insert for exactly the largest threshold t ∈ {100, 90, 75, 50} with
(s/b)·100 ≥ t, and attempts none when (s/b)·100 < 50; thresholds below the
selected one are not attempted. -/
theorem evaluateThresholds_spec (b s : ℚ) (hb : 0 < b) :
    (s / b * 100 < 50 → evaluateThresholds b s = []) ∧
    (50 ≤ s / b * 100 →
      ∃ t, evaluateThresholds b s = [t] ∧ t ∈ budgetThresholds ∧
        t ≤ s / b * 100 ∧
        ∀ u ∈ budgetThresholds, u ≤ s / b * 100 → u ≤ t) := by
  clear hb
  set p : ℚ := s / b * 100 with hp
  constructor
  · intro h50
    have h75 : ¬ (75 : ℚ) ≤ p := by linarith
    have h90 : ¬ (90 : ℚ) ≤ p := by linarith
    have h100 : ¬ (100 : ℚ) ≤ p := by linarith
    have h50' : ¬ (50 : ℚ) ≤ p := by linarith
    simp [evaluateThresholds, budgetThresholds, thresholdLoop, ← hp,
      h75, h90, h100, h50']
  · intro h50
    by_cases h100 : (100 : ℚ) ≤ p
    · refine ⟨100, ?_, ?_, h100, ?_⟩
      · simp [evaluateThresholds, budgetThresholds, thresholdLoop, ← hp, h100]
      · simp [budgetThresholds]
      · intro u hu _
        simp [budgetThresholds] at hu
        rcases hu with h | h | h | h <;> rw [h] <;> norm_num
    · by_cases h90 : (90 : ℚ) ≤ p
      · refine ⟨90, ?_, ?_, h90, ?_⟩
        · simp [evaluateThresholds, budgetThresholds, thresholdLoop, ← hp,
            h100, h90]
        · simp [budgetThresholds]
        · intro u hu hup
          simp [budgetThresholds] at hu
          rcases hu with h | h | h | h <;> rw [h] <;> first
            | (exfalso; rw [h] at hup; exact h100 hup)
            | norm_num
      · by_cases h75 : (75 : ℚ) ≤ p
        · refine ⟨75, ?_, ?_, h75, ?_⟩
          · simp [evaluateThresholds, budgetThresholds, thresholdLoop, ← hp,
              h100, h90, h75]
          · simp [budgetThresholds]
          · intro u hu hup
            simp [budgetThresholds] at hu
            rcases hu with h | h | h | h <;> rw [h] <;> first
              | (exfalso; rw [h] at hup; exact h100 hup)
              | (exfalso; rw [h] at hup; exact h90 hup)
              | norm_num
        · refine ⟨50, ?_, ?_, h50, ?_⟩
          · simp [evaluateThresholds, budgetThresholds, thresholdLoop, ← hp,
              h100, h90, h75, h50]
          · simp [budgetThresholds]
          · intro u hu hup
            simp [budgetThresholds] at hu
            rcases hu with h | h | h | h <;> rw [h] <;> first
              | (exfalso; rw [h] at hup; exact h100 hup)
              | (exfalso; rw [h] at hup; exact h90 hup)
              | (exfalso; rw [h] at hup; exact h75 hup)
              | norm_num

/-- Witness for C8: ceiling 100, spend 80 attempts exactly threshold 75. -/
theorem evaluateThresholds_spec_witness :
    evaluateThresholds 100 80 = [75] ∧
      (((80 : ℚ) / 100 * 100 < 50 → evaluateThresholds 100 80 = []) ∧
       (50 ≤ (80 : ℚ) / 100 * 100 →
         ∃ t, evaluateThresholds 100 80 = [t] ∧ t ∈ budgetThresholds ∧
           t ≤ (80 : ℚ) / 100 * 100 ∧
           ∀ u ∈ budgetThresholds, u ≤ (80 : ℚ) / 100 * 100 → u ≤ t)) :=
  ⟨by norm_num [evaluateThresholds, budgetThresholds, thresholdLoop],
   evaluateThresholds_spec 100 80 (by norm_num)⟩

/-- C10: a scope whose monthly ceiling is NULL/absent (none) or 0 is never
evaluated by checkBudgets and never receives an alert, regardless of spend:
checkBudgets degenerates to the other scope alone. -/
theorem checkBudgets_skips_nonpositive_ceiling
    (orgSpend projSpend : ℚ) (pb ob : Option ℚ) :
    checkBudgets none orgSpend pb projSpend =
      (scopeAlerts pb projSpend).map (fun t => (ScopeLevel.project, t)) ∧
    checkBudgets (some 0) orgSpend pb projSpend =
      (scopeAlerts pb projSpend).map (fun t => (ScopeLevel.project, t)) ∧
    checkBudgets ob orgSpend none projSpend =
      (scopeAlerts ob orgSpend).map (fun t => (ScopeLevel.organization, t)) ∧
    checkBudgets ob orgSpend (some 0) projSpend =
      (scopeAlerts ob orgSpend).map (fun t => (ScopeLevel.organization, t)) := by
  refine ⟨?_, ?_, ?_, ?_⟩ <;> simp [checkBudgets, scopeAlerts]

/-! ## Theorems for claims C1, C6, C9, C7, C4, C2 -/

/-- C1: when the usage-ledger write performed after a forwarded upstream
response throws, proxyChatCompletion returns exactly the outcome (status,
body, trace identifier, or error) it returns when the write succeeds: the
governance failure is caught and never propagated to the caller. -/
theorem proxyChatCompletion_ledger_failure_invisible
    (requestId : String) (keyResult : Option ProxyKeyInfo) (model : String)
    (decryptFn : String → Except String String) (orgDbError : Bool)
    (storedOrgKey : Option String) (upstream : Option UpstreamResponse) :
    (proxyChatCompletion requestId keyResult model decryptFn orgDbError
      storedOrgKey upstream true).1 =
    (proxyChatCompletion requestId keyResult model decryptFn orgDbError
      storedOrgKey upstream false).1 := by
  unfold proxyChatCompletion
  cases keyResult with
  | none => rfl
  | some k =>
      cases validateModel model with
      | some msg => rfl
      | none =>
          cases getOrganizationOpenAIKey decryptFn orgDbError storedOrgKey with
          | error msg => rfl
          | ok openaiApiKey =>
              cases upstream with
              | none => rfl
              | some resp =>
                  by_cases h200 : resp.status = 200 <;> simp [h200]

/-- C6 counterexample: revoking an already-revoked credential is not a no-op
on the stored state: the second revocation at time 2 overwrites the
revoked_at written by the first revocation at time 1. -/
theorem revokeProxyKey_rerevoke_changes_state :
    (revokeProxyKey 2 (revokeProxyKey 1 ⟨true, none⟩).key).key ≠
      (revokeProxyKey 1 ⟨true, none⟩).key := by
  decide

/-- C6 (amended): revocation is one-way and re-revocation still succeeds: for
every current state, revokeProxyKey reports success and leaves the key with
active = false and a non-null revoked_at — but revoked_at is refreshed to the
time of the latest revocation call rather than kept unchanged. -/
theorem revokeProxyKey_oneway (now : ℕ) (current : ProxyKeyState) :
    (revokeProxyKey now current).success = true ∧
    (revokeProxyKey now current).key.is_active = false ∧
    (revokeProxyKey now current).key.revoked_at = some now :=
  ⟨rfl, rfl, rfl⟩

/-- C9: a stored non-empty organization key that does not match the
iv:authTag:ciphertext format is returned unchanged by
getOrganizationOpenAIKey: no error is raised, and the result does not depend
on the decryption function, so no decryption is attempted. -/
theorem getOrganizationOpenAIKey_legacy_plaintext
    (decryptFn decryptFn2 : String → Except String String) (v : String)
    (hv : v ≠ "") (henc : isEncrypted v = false) :
    getOrganizationOpenAIKey decryptFn false (some v) = .ok v ∧
    getOrganizationOpenAIKey decryptFn false (some v) =
      getOrganizationOpenAIKey decryptFn2 false (some v) := by
  unfold getOrganizationOpenAIKey
  simp [hv, henc]

/-- Witness for C9: an unencrypted legacy secret is passed through as-is,
whatever the decryption function would have done. -/
theorem getOrganizationOpenAIKey_legacy_plaintext_witness :
    "sk-proj-legacy" ≠ "" ∧ isEncrypted "sk-proj-legacy" = false ∧
    (getOrganizationOpenAIKey (fun _ => .error "boom") false
        (some "sk-proj-legacy") = .ok "sk-proj-legacy" ∧
     getOrganizationOpenAIKey (fun _ => .error "boom") false
        (some "sk-proj-legacy") =
      getOrganizationOpenAIKey (fun s => .ok s) false (some "sk-proj-legacy")) :=
  ⟨by decide, by decide,
   getOrganizationOpenAIKey_legacy_plaintext _ _ _ (by decide) (by decide)⟩

/-- C7: a request that passes the route body validation but names a model
outside the allowlist is rejected by proxyChatCompletion — after credential
verification — with a validation failure naming the rejected model and the
allowed set, and with an empty effect list: neither the outbound upstream
call nor any usage-ledger write is performed. -/
theorem proxyChatCompletion_unsupported_model
    (requestId : String) (k : ProxyKeyInfo) (model : String)
    (messages : Option (List String))
    (decryptFn : String → Except String String) (orgDbError : Bool)
    (storedOrgKey : Option String) (upstream : Option UpstreamResponse)
    (loggingFails : Bool)
    (hroute : validateChatCompletionRequest model messages = none)
    (hunsupported : getSupportedModels.contains model = false) :
    proxyChatCompletion requestId (some k) model decryptFn orgDbError
        storedOrgKey upstream loggingFails =
      (.error (.invalidModel ("Unsupported model: " ++ model ++
        ". Supported models: " ++ String.intercalate ", " getSupportedModels)),
       []) := by
  have hmodel : model ≠ "" := by
    intro h
    rw [h] at hroute
    simp [validateChatCompletionRequest] at hroute
  have hvm : validateModel model = some ("Unsupported model: " ++ model ++
      ". Supported models: " ++ String.intercalate ", " getSupportedModels) := by
    unfold validateModel
    rw [if_neg hmodel, hunsupported]
    simp
  unfold proxyChatCompletion
  rw [hvm]

/-- Witness for C7: the unsupported model gpt-5 with a verified credential is
rejected naming model and allowlist, with no upstream call and no ledger
write. -/
theorem proxyChatCompletion_unsupported_model_witness :
    proxyChatCompletion "req-1" (some ⟨1, 2, 3⟩) "gpt-5" (fun s => .ok s) false
        (some "sk-real") (some ⟨200, "ok"⟩) true =
      (.error (.invalidModel ("Unsupported model: " ++ "gpt-5" ++
        ". Supported models: " ++ String.intercalate ", " getSupportedModels)),
       []) :=
  proxyChatCompletion_unsupported_model "req-1" ⟨1, 2, 3⟩ "gpt-5"
    (some ["hello"]) (fun s => .ok s) false (some "sk-real") (some ⟨200, "ok"⟩)
    true (by decide) (by decide)

/-- C4: verifyProxyKey either fails with the single generic message — the
same one whether the secret matches no fingerprint, matches only an inactive
credential, or an internal error occurred — or succeeds on an active stored
credential whose fingerprint equals that of the provided secret. -/
theorem verifyProxyKey_failure_is_generic (pepperConfigured : Bool)
    (hashFn : String → List ℕ) (dbError : Bool) (table : List ProxyKeyRow)
    (keyValue : String) :
    verifyProxyKey pepperConfigured hashFn dbError table keyValue =
        .error "Invalid or revoked proxy key" ∨
      ∃ row ∈ table, row.is_active = true ∧
        row.key_value = hashFn keyValue ∧
        verifyProxyKey pepperConfigured hashFn dbError table keyValue =
          .ok ⟨row.id, row.organization_id, row.project_id, row.is_active⟩ := by
  unfold verifyProxyKey
  cases hinner : verifyProxyKeyInner pepperConfigured hashFn dbError table
      keyValue with
  | error e => left; rfl
  | ok k =>
      right
      simp only [verifyProxyKeyInner] at hinner
      split at hinner
      · exact absurd hinner (by simp)
      · split at hinner
        · exact absurd hinner (by simp)
        · split at hinner
          · exact absurd hinner (by simp)
          · split at hinner
            · exact absurd hinner (by simp)
            · rename_i row hfind
              split at hinner
              · exact absurd hinner (by simp)
              · rename_i hactive
                have hmem : row ∈ table.filter (fun r => r.is_active) :=
                  List.mem_of_find?_eq_some hfind
                have hbuf : bufferEq row.key_value (hashFn keyValue) = true := by
                  simpa using List.find?_some hfind
                have hmem2 : row ∈ table ∧ row.is_active = true := by
                  simpa using List.mem_filter.mp hmem
                have hkey : row.key_value = hashFn keyValue := by
                  unfold bufferEq at hbuf
                  split at hbuf
                  · exact of_decide_eq_true hbuf
                  · exact absurd hbuf (by simp)
                refine ⟨row, hmem2.1, hmem2.2, hkey, ?_⟩
                rw [← (Except.ok.injEq _ _).mp hinner]

/-- Lemma: recordAlert preserves the at-most-one-alert-per-key invariant. -/
theorem recordAlert_preserves_uniqueAlerts (dbFail : Bool)
    (store : List AlertRow) (r : AlertRow) (h : uniqueAlerts store) :
    uniqueAlerts (recordAlert dbFail store r).1 := by
  by_cases hdb : dbFail
  · simpa [recordAlert, hdb]
  · by_cases hcol : store.any (fun x => decide (alertKey x = alertKey r)) = true
    · simpa [recordAlert, alertInsert, hdb, hcol]
    · simp only [recordAlert, alertInsert, hdb, hcol, if_false, if_true,
        Bool.false_eq_true, ite_false]
      simp only [uniqueAlerts] at h ⊢
      rw [List.pairwise_append]
      refine ⟨h, List.pairwise_singleton _ _, ?_⟩
      intro a ha b hb
      simp only [List.mem_singleton] at hb
      subst hb
      simp only [List.any_eq_true, decide_eq_true_eq, not_exists] at hcol
      intro hk
      exact hcol a ⟨ha, hk⟩

/-- C2: starting from a store satisfying the uniqueness invariant, recordAlert
preserves it; a call colliding with an existing row for the same
(scope, threshold, period) key returns success (already_sent) and leaves the
store unchanged; and after any sequence of recordAlert calls on an initially
empty store, at most one alert exists per key. -/
theorem recordAlert_unique_and_idempotent (dbFail : Bool)
    (store : List AlertRow) (r : AlertRow) (h : uniqueAlerts store) :
    uniqueAlerts (recordAlert dbFail store r).1 ∧
    ((∃ x ∈ store, alertKey x = alertKey r) →
      recordAlert false store r = (store, ⟨true, true⟩)) ∧
    ∀ calls : List (Bool × AlertRow),
      uniqueAlerts (applyRecordAlerts calls []) := by
  refine ⟨recordAlert_preserves_uniqueAlerts dbFail store r h, ?_, ?_⟩
  · intro ⟨x, hx, hk⟩
    have hcol : store.any (fun y => decide (alertKey y = alertKey r)) = true := by
      simp only [List.any_eq_true, decide_eq_true_eq]
      exact ⟨x, hx, hk⟩
    simp [recordAlert, alertInsert, hcol]
  · intro calls
    have hstep : ∀ s, uniqueAlerts s → uniqueAlerts (applyRecordAlerts calls s) := by
      induction calls with
      | nil => intro s hs; exact hs
      | cons c cs ih =>
          intro s hs
          exact ih _ (recordAlert_preserves_uniqueAlerts c.1 s c.2 hs)
    exact hstep [] (by simp [uniqueAlerts])

/-- Witness for C2: re-recording the same alert (same scope, threshold and
period) is treated as success with already_sent and leaves the single-row
store unchanged. -/
theorem recordAlert_unique_and_idempotent_witness :
    uniqueAlerts [(⟨1, none, "organization", 50, 100, 55, "2026-10"⟩ : AlertRow)] ∧
    (uniqueAlerts (recordAlert false
        [(⟨1, none, "organization", 50, 100, 55, "2026-10"⟩ : AlertRow)]
        ⟨1, none, "organization", 50, 100, 55, "2026-10"⟩).1 ∧
     ((∃ x ∈ [(⟨1, none, "organization", 50, 100, 55, "2026-10"⟩ : AlertRow)],
        alertKey x = alertKey (⟨1, none, "organization", 50, 100, 55, "2026-10"⟩ : AlertRow)) →
      recordAlert false
        [(⟨1, none, "organization", 50, 100, 55, "2026-10"⟩ : AlertRow)]
        ⟨1, none, "organization", 50, 100, 55, "2026-10"⟩ =
        ([(⟨1, none, "organization", 50, 100, 55, "2026-10"⟩ : AlertRow)],
          ⟨true, true⟩)) ∧
     ∀ calls : List (Bool × AlertRow),
       uniqueAlerts (applyRecordAlerts calls [])) :=
  ⟨by simp [uniqueAlerts],
   recordAlert_unique_and_idempotent false _ _ (by simp [uniqueAlerts])⟩

/-! ## Theorems for claim C5 -/

theorem hexVal_hexDigitChar {n : ℕ} (h : n < 16) :
    hexVal (hexDigitChar n) = some n := by
  interval_cases n <;> rfl

theorem hexDigitChar_ne_colon {n : ℕ} (h : n < 16) : hexDigitChar n ≠ ':' := by
  interval_cases n <;> decide

theorem colon_not_mem_hexEncode (bs : List Byte) : ':' ∉ hexEncode bs := by
  induction bs with
  | nil => simp [hexEncode]
  | cons b bs ih =>
      have hb := b.isLt
      have h1 : b.val / 16 < 16 := by omega
      have h2 : b.val % 16 < 16 := by omega
      simp only [hexEncode, List.mem_cons, not_or]
      refine ⟨?_, ?_, ih⟩
      · intro hc
        exact hexDigitChar_ne_colon h1 hc.symm
      · intro hc
        exact hexDigitChar_ne_colon h2 hc.symm

theorem hexDecode_hexEncode (bs : List Byte) :
    hexDecode (hexEncode bs) = some bs := by
  induction bs with
  | nil => rfl
  | cons b bs ih =>
      have hb := b.isLt
      have h1 : b.val / 16 < 16 := by omega
      have h2 : b.val % 16 < 16 := by omega
      have h3 : b.val / 16 * 16 + b.val % 16 < 256 := by omega
      simp only [hexEncode, hexDecode, hexVal_hexDigitChar h1,
        hexVal_hexDigitChar h2, ih]
      rw [dif_pos h3]
      have h4 : (⟨b.val / 16 * 16 + b.val % 16, h3⟩ : Byte) = b :=
        Fin.ext (by
          show b.val / 16 * 16 + b.val % 16 = b.val
          omega)
      rw [h4]

theorem splitOnChar_of_not_mem {sep : Char} {l : List Char} (h : sep ∉ l) :
    splitOnChar sep l = [l] := by
  induction l with
  | nil => rfl
  | cons c cs ih =>
      simp only [List.mem_cons, not_or] at h
      simp only [splitOnChar]
      rw [if_neg (fun hc => h.1 hc.symm)]
      rw [ih h.2]

theorem splitOnChar_append_sep {sep : Char} {a rest : List Char} (ha : sep ∉ a) :
    splitOnChar sep (a ++ sep :: rest) = a :: splitOnChar sep rest := by
  induction a with
  | nil =>
      simp only [List.nil_append, splitOnChar]
      rw [if_pos trivial]
  | cons c cs ih =>
      simp only [List.mem_cons, not_or] at ha
      simp only [List.cons_append, splitOnChar, List.append_eq]
      rw [if_neg (fun hc => ha.1 hc.symm)]
      rw [ih ha.2]

/-- C5: for every non-empty plaintext and every iv (the source draws 12 fresh
random bytes per call), encrypt produces an iv:authTag:ciphertext hex bundle
and decrypt of that bundle under the same master key recovers the plaintext
exactly, given that the underlying AES-256-GCM core (Node crypto, outside
this repository) round-trips for that key. -/
theorem encrypt_decrypt_roundtrip
    (encCore : List Byte → List Byte → List Byte → GcmOutput)
    (decCore : List Byte → List Byte → List Byte → List Byte → Option (List Byte))
    (key iv pt : List Byte)
    (hcore : ∀ iv2 pt2, decCore key iv2 (encCore key iv2 pt2).ciphertext
      (encCore key iv2 pt2).authTag = some pt2)
    (hpt : pt ≠ []) :
    ∃ bundle, encrypt encCore key iv pt = .ok bundle ∧
      decrypt decCore key bundle = .ok pt := by
  have hne : pt.isEmpty = false := by
    simpa using hpt
  refine ⟨hexEncode iv ++ ':' :: (hexEncode (encCore key iv pt).authTag ++ ':' ::
    hexEncode (encCore key iv pt).ciphertext), ?_, ?_⟩
  · simp [encrypt, hne]
  · have hsplit : splitOnChar ':' (hexEncode iv ++ ':' ::
        (hexEncode (encCore key iv pt).authTag ++ ':' ::
          hexEncode (encCore key iv pt).ciphertext)) =
        [hexEncode iv, hexEncode (encCore key iv pt).authTag,
          hexEncode (encCore key iv pt).ciphertext] := by
      rw [splitOnChar_append_sep (colon_not_mem_hexEncode iv),
        splitOnChar_append_sep
          (colon_not_mem_hexEncode (encCore key iv pt).authTag),
        splitOnChar_of_not_mem
          (colon_not_mem_hexEncode (encCore key iv pt).ciphertext)]
    have hne2 : (hexEncode iv ++ ':' ::
        (hexEncode (encCore key iv pt).authTag ++ ':' ::
          hexEncode (encCore key iv pt).ciphertext)).isEmpty = false := by
      cases hA : hexEncode iv <;> simp [hA]
    simp [decrypt, hne2, hsplit, hexDecode_hexEncode, hcore]

/-- Witness for C5: with a trivial core satisfying the GCM round-trip
hypothesis, a one-byte plaintext survives the encrypt/decrypt bundle cycle. -/
theorem encrypt_decrypt_roundtrip_witness :
    ([(65 : Byte)] ≠ []) ∧
    (∃ bundle,
      encrypt (fun _ _ p => ⟨p, []⟩) [] [(18 : Byte)] [(65 : Byte)] =
        .ok bundle ∧
      decrypt (fun _ _ ct _ => some ct) [] bundle = .ok [(65 : Byte)]) :=
  ⟨by decide,
   encrypt_decrypt_roundtrip (fun _ _ p => ⟨p, []⟩) (fun _ _ ct _ => some ct)
     [] [(18 : Byte)] [(65 : Byte)] (fun _ _ => rfl) (by decide)⟩

end SpendAI
